import Mathlib

/-!
Verification of the `stock_project` repository (file `final_project/login.js`),
which contains two scripts:

* a Session Capturer: opens the login page, waits for manual login, reads the
  browser cookie jar, filters it with `c.domain.includes("simplywall.st")`
  and writes the result to `cookies.json`;
* a Batch Fetcher: reads a CSV manifest, applies the saved cookies, and for
  each row visits `BASE_URL + row["canonical_url"].trim()`, writing the page
  content to `html_dump/<ticker>.html` on success or appending a line
  `ISO-timestamp | ticker | message` to `errors.log` on failure.

The scripts are embedded as pure state-transition functions.  Browser
navigation and page capture are an external capability, so each manifest
index is given an oracle outcome (`TryOutcome`); the timestamp taken by
`new Date().toISOString()` at index `i` is likewise oracle-supplied.
Filesystem effects are recorded both in an association-list filesystem and in
an explicit event trace (one `FsEvent` per performed write/append syscall).
-/

/-- Model of JavaScript `String.prototype.trim`: removes leading and trailing
whitespace characters.  Defined over the character list so that the kernel
can evaluate it on concrete inputs. -/
def jsTrim (s : String) : String :=
  ⟨(((s.data.dropWhile Char.isWhitespace).reverse.dropWhile Char.isWhitespace).reverse)⟩

/-- Whether `pat` occurs as a contiguous sublist of `l`. -/
def listContainsSeq (l pat : List Char) : Bool :=
  match l with
  | [] => pat.isEmpty
  | _ :: t => pat.isPrefixOf l || listContainsSeq t pat

/-- Model of JavaScript `String.prototype.includes`: substring containment. -/
def jsIncludes (s pat : String) : Bool :=
  listContainsSeq s.data pat.data

/-- Model of "`pat` is a suffix of `s`" over strings. -/
def jsEndsWith (s pat : String) : Bool :=
  pat.data.isSuffixOf s.data

/-! ## Session Capturer (`login.js`, first script) -/

/-- A browser cookie record, as read from the cookie jar and persisted to
`cookies.json` (`{name, value, domain, path, expires, httpOnly, secure,
sameSite}`). -/
structure Cookie where
  name : String
  value : String
  domain : String
  cookiePath : String
  expires : Int
  httpOnly : Bool
  secure : Bool
  sameSite : String
deriving DecidableEq

/-- The hard-coded target domain filter of the Session Capturer. -/
def targetDomain : String := "simplywall.st"

/-- Line 35 of `login.js`:
`const sessionCookies = cookies.filter(c => c.domain.includes("simplywall.st"));` -/
def sessionCookies (cookies : List Cookie) : List Cookie :=
  cookies.filter (fun c => jsIncludes c.domain targetDomain)

/-- Environment of one Session Capturer run: whether `page.goto` of the login
URL fails (timeout, DNS error, ...), and the cookie jar the browser holds
after the fixed 30-second wait. -/
structure CaptureEnv where
  navFails : Bool
  jar : List Cookie

/-- One run of the Session Capturer IIFE, observed through the artifact file
`cookies.json` (`prior` is its content before the run, `none` if absent).
A navigation failure rejects the `await page.goto` and the rest of the async
function never executes, so the artifact write on line 39 is not reached;
otherwise the filtered jar is written, overwriting any prior artifact. -/
def captureRun (e : CaptureEnv) (prior : Option (List Cookie)) : Option (List Cookie) :=
  if e.navFails then prior
  else some (sessionCookies e.jar)

/-- The spec reading of the cookie-domain invariant: the domain of the record
matches the domain of the target site or is a suffix-match of it (covering
the leading-dot form `.simplywall.st`).  Stated from the wording of the
spec, to be
compared with the `jsIncludes` filter the code actually uses. -/
def specInTargetScope (d : String) : Bool :=
  d == targetDomain || jsEndsWith d targetDomain

/-! ## Batch Fetcher (`login.js`, second script) -/

/-- The constant `BASE_URL = "https://simplywall.st"` of the script. -/
def BASE_URL : String := "https://simplywall.st"

/-- One CSV manifest row.  The loop reads the columns `tickers` and
`canonical_url`; a missing column makes the corresponding field `undefined`,
modelled as `none`.  Other columns are ignored by the script. -/
structure Row where
  tickers : Option String
  canonicalUrl : Option String
deriving DecidableEq

/-- A row on which the field extraction at the top of the loop body succeeds:
both columns are present. -/
def Row.wellFormed (r : Row) : Bool :=
  r.tickers.isSome && r.canonicalUrl.isSome

/-- The trimmed identifier `const ticker = row["tickers"].trim()` (defaulting
the absent case, which in the script throws instead). -/
def Row.ident (r : Row) : String := jsTrim (r.tickers.getD "")

/-- The trimmed path `const pathUrl = row["canonical_url"].trim()`. -/
def Row.urlPath (r : Row) : String := jsTrim (r.canonicalUrl.getD "")

/-- The composed target URL `fullUrl = BASE_URL + pathUrl`. -/
def Row.fullUrl (r : Row) : String := BASE_URL ++ r.urlPath

/-- The output file name `` `${ticker}.html` `` used by line 113. -/
def Row.outName (r : Row) : String := r.ident ++ ".html"

/-- Outcome of the fenced part of one iteration (navigation with a 60 s
timeout, settle delay, then `page.content()`), supplied by the environment:
success with the captured content, or one of the failure kinds the spec
names, each carrying the `err.message` string. -/
inductive TryOutcome where
  | ok (content : String)
  | navTimeout (msg : String)
  | netError (msg : String)
  | captureExn (msg : String)
deriving DecidableEq

/-- The error message of a failing outcome, `none` on success. -/
def TryOutcome.failMsg? : TryOutcome → Option String
  | .ok _ => none
  | .navTimeout m => some m
  | .netError m => some m
  | .captureExn m => some m

/-- One filesystem syscall performed by the loop body: a `writeFileSync` of
an output file, or an `appendFileSync` of one error-log line. -/
inductive FsEvent where
  | write (name content : String)
  | append (line : String)
deriving DecidableEq

def FsEvent.isWrite : FsEvent → Bool
  | .write _ _ => true
  | .append _ => false

def FsEvent.isAppend : FsEvent → Bool
  | .write _ _ => false
  | .append _ => true

/-- The output directory as an association list from file name to content;
`writeFile` models `fs.writeFileSync`: it replaces the content of an existing
name and otherwise adds the file. -/
def writeFile (files : List (String × String)) (name content : String) :
    List (String × String) :=
  match files with
  | [] => [(name, content)]
  | (n, c) :: rest =>
    if n = name then (n, content) :: rest else (n, c) :: writeFile rest name content

/-- Content of a file in the modelled directory, `none` if absent. -/
def readFile? (files : List (String × String)) (name : String) : Option String :=
  match files with
  | [] => none
  | (n, c) :: rest => if n = name then some c else readFile? rest name

/-- The line appended by `logError` (line 83):
`` `${new Date().toISOString()} | ${ticker} | ${error}\n` ``. -/
def logLine (ts ticker msg : String) : String :=
  ts ++ " | " ++ ticker ++ " | " ++ msg ++ "\n"

/-- Model of `logError` (lines 82–85): append one line to `errors.log`, whose current
content is `log`. -/
def logError (log ts ticker msg : String) : String :=
  log ++ logLine ts ticker msg

/-- State the batch loop threads along: the output directory, the error-log
content, the trace of URLs passed to `page.goto` in order, and the trace of
filesystem syscalls performed. -/
structure BatchState where
  files : List (String × String)
  errorLog : String
  visited : List String
  trace : List FsEvent
deriving DecidableEq

/-- The message of the `TypeError` thrown by `.trim()` on `undefined` when a
manifest row lacks the `tickers` or `canonical_url` column. -/
def trimTypeError : String := "TypeError: Cannot read properties of undefined"

/-- Body of the `for (const row of rows)` loop (lines 102–121) for one row.
The field extraction and trimming (lines 103–105) happen before the `try`,
so a missing column throws out of the loop: that is the `some` error in the
second component, with the state unchanged (nothing was performed yet in this
iteration).  Inside the `try`, `page.goto(fullUrl, ...)` is attempted (the
URL is traced), then on success the content is written to
`html_dump/<ticker>.html`, and on any failure the `catch` appends one
`logLine` to the error log and the loop continues. -/
def processRow (out : TryOutcome) (ts : String) (st : BatchState) (row : Row) :
    BatchState × Option String :=
  match row.tickers, row.canonicalUrl with
  | some t, some p =>
    let ticker := jsTrim t
    let fullUrl := BASE_URL ++ jsTrim p
    match out with
    | .ok content =>
      ({ files := writeFile st.files (ticker ++ ".html") content,
         errorLog := st.errorLog,
         visited := st.visited ++ [fullUrl],
         trace := st.trace ++ [.write (ticker ++ ".html") content] }, none)
    | .navTimeout m | .netError m | .captureExn m =>
      ({ files := st.files,
         errorLog := logError st.errorLog ts ticker m,
         visited := st.visited ++ [fullUrl],
         trace := st.trace ++ [.append (logLine ts ticker m)] }, none)
  | _, _ => (st, some trimTypeError)

/-- The whole loop, from index `i`: processes the rows in order, stopping
with the thrown error (and the filesystem state reached so far) when an
iteration throws outside its `try`. -/
def runLoop (out : Nat → TryOutcome) (ts : Nat → String) :
    Nat → BatchState → List Row → BatchState × Option String
  | _, st, [] => (st, none)
  | i, st, row :: rest =>
    match processRow (out i) (ts i) st row with
    | (st2, none) => runLoop out ts (i + 1) st2 rest
    | (st2, some e) => (st2, some e)

/-- The error message thrown by `applyCookies` (line 73) when `cookies.json`
does not exist. -/
def missingCookiesMsg : String :=
  "Cookies file \"cookies.json\" not found. Run login.js first."

/-- The fixed message printed after the loop (line 124). -/
def allCreatedMsg : String := "✅ All HTML files created"

/-- Environment of one Batch Fetcher run: the manifest rows (`none` when
`snowflake_chart.csv` is unreadable), the session artifact (`none` when
`cookies.json` is absent), the per-index outcome and timestamp oracles, and
the pre-existing output directory and error-log content. -/
structure BatchEnv where
  manifest : Option (List Row)
  artifact : Option (List Cookie)
  outcomes : Nat → TryOutcome
  timestamps : Nat → String
  initFiles : List (String × String)
  initLog : String

/-- Observable result of one run of the Batch Fetcher script: final output
directory and error log, trace of visited URLs and filesystem syscalls,
whether `browser.close()` on line 123 was reached, the completion message
printed after the loop (if reached), and the fatal error caught by `main`
(if any). -/
structure RunResult where
  files : List (String × String)
  errorLog : String
  visited : List String
  trace : List FsEvent
  browserClosed : Bool
  summaryReport : Option String
  fatal : Option String
deriving DecidableEq

/-- Model of `dumpHTML` (lines 88–125) applied to already-loaded rows: launch browser,
`applyCookies` (throws `missingCookiesMsg` when the artifact is absent —
before the output directory is ensured and before any iteration), ensure the
output directory, run the loop, and if no iteration threw, close the browser
and print the completion message.  A thrown error propagates to the
`catch` of `main`, which reports it as fatal; `browser.close()` is then never reached. -/
def dumpHTMLRun (e : BatchEnv) (rows : List Row) : RunResult :=
  match e.artifact with
  | none =>
    { files := e.initFiles, errorLog := e.initLog, visited := [], trace := [],
      browserClosed := false, summaryReport := none, fatal := some missingCookiesMsg }
  | some _ =>
    match runLoop e.outcomes e.timestamps 0
        { files := e.initFiles, errorLog := e.initLog, visited := [], trace := [] } rows with
    | (st, none) =>
      { files := st.files, errorLog := st.errorLog, visited := st.visited, trace := st.trace,
        browserClosed := true, summaryReport := some allCreatedMsg, fatal := none }
    | (st, some err) =>
      { files := st.files, errorLog := st.errorLog, visited := st.visited, trace := st.trace,
        browserClosed := false, summaryReport := none, fatal := some err }

/-- The error message of `readCSV` rejecting when the manifest file is
missing. -/
def missingManifestMsg : String := "ENOENT: no such file or directory"

/-- Model of `main` (lines 128–135): `readCSV` (the whole file is read and resolved as
one list before `dumpHTML` starts), then `dumpHTML`; any error is caught and
reported as fatal. -/
def runBatch (e : BatchEnv) : RunResult :=
  match e.manifest with
  | none =>
    { files := e.initFiles, errorLog := e.initLog, visited := [], trace := [],
      browserClosed := false, summaryReport := none, fatal := some missingManifestMsg }
  | some rows => dumpHTMLRun e rows

/-! ## Observable effect of the loop on well-formed rows -/

/-- The single filesystem syscall the iteration for row `r` performs, given
its outcome and timestamp: a write of the output file on success, an append
of one error-log line on failure. -/
def entryEvent (out : TryOutcome) (ts : String) (r : Row) : FsEvent :=
  match out with
  | .ok c => .write r.outName c
  | .navTimeout m | .netError m | .captureExn m => .append (logLine ts r.ident m)

/-- Events performed by the loop on `rows` starting at index `i`, one per
row, in row order. -/
def eventsList (out : Nat → TryOutcome) (ts : Nat → String) :
    Nat → List Row → List FsEvent
  | _, [] => []
  | i, r :: rs => entryEvent (out i) (ts i) r :: eventsList out ts (i + 1) rs

/-- Text appended to the error log by the loop on `rows` starting at index
`i`: exactly one `logLine` per failing row, in row order, nothing for
succeeding rows. -/
def logsStr (out : Nat → TryOutcome) (ts : Nat → String) : Nat → List Row → String
  | _, [] => ""
  | i, r :: rs =>
    (match (out i).failMsg? with
     | some m => logLine (ts i) r.ident m
     | none => "") ++ logsStr out ts (i + 1) rs

/-- The output directory after the loop processes `rows` starting at index
`i` from directory `fs`: each succeeding row overwrites its own output file,
failing rows touch nothing. -/
def filesAfter (out : Nat → TryOutcome) :
    Nat → List (String × String) → List Row → List (String × String)
  | _, fs, [] => fs
  | i, fs, r :: rs =>
    filesAfter out (i + 1)
      (match out i with
       | .ok c => writeFile fs r.outName c
       | _ => fs) rs

/-- Number of successful entries of a run, read off the syscall trace. -/
def succeededOf (r : RunResult) : Nat := r.trace.countP FsEvent.isWrite

/-- Number of failed entries of a run, read off the syscall trace. -/
def failedOf (r : RunResult) : Nat := r.trace.countP FsEvent.isAppend

/-- The `BatchState` the loop starts from: the pre-existing output directory
and error log, nothing visited, no syscall performed yet. -/
def initState (e : BatchEnv) : BatchState :=
  { files := e.initFiles, errorLog := e.initLog, visited := [], trace := [] }

/-! ## Concrete instances used to exercise the theorems -/

/-- A cookie inside the target scope (leading-dot domain form). -/
def goodCookie : Cookie :=
  { name := "sws-session", value := "abc123", domain := ".simplywall.st",
    cookiePath := "/", expires := 1767225600, httpOnly := true, secure := true,
    sameSite := "Lax" }

/-- A cookie whose domain merely CONTAINS the target domain as a substring
but is outside the target scope. -/
def evilCookie : Cookie :=
  { name := "tracker", value := "deadbeef", domain := "simplywall.st.evil.com",
    cookiePath := "/", expires := 0, httpOnly := false, secure := false,
    sameSite := "None" }

/-- A cookie of an unrelated domain. -/
def otherCookie : Cookie :=
  { name := "ga", value := "g1", domain := ".google.com",
    cookiePath := "/", expires := 0, httpOnly := false, secure := false,
    sameSite := "None" }

/-- A mixed cookie jar: one in-scope, one substring-only, one unrelated. -/
def mixedJar : List Cookie := [goodCookie, evilCookie, otherCookie]

def rowAAPL : Row :=
  { tickers := some "AAPL", canonicalUrl := some "/stocks/us/tech/nasdaq-aapl/apple" }

def rowBAD : Row := { tickers := some "BAD", canonicalUrl := some "/broken" }

def rowMSFT : Row :=
  { tickers := some " MSFT ", canonicalUrl := some " /stocks/us/tech/nasdaq-msft/microsoft " }

/-- A malformed CSV row: the `tickers` column is absent. -/
def rowNoTicker : Row := { tickers := none, canonicalUrl := some "/stocks/x" }

def timeoutMsg : String := "Navigation timeout of 60000 ms exceeded"

def pageHtml : String := "<html>snowflake</html>"

def sampleTs : String := "2026-01-01T00:00:00.000Z"

def sampleRows : List Row := [rowAAPL, rowBAD, rowMSFT]

/-- A run in which entry 1 (`rowBAD`) times out and the others succeed. -/
def envMixed : BatchEnv :=
  { manifest := some sampleRows, artifact := some [goodCookie],
    outcomes := fun i => if i = 1 then .navTimeout timeoutMsg else .ok pageHtml,
    timestamps := fun _ => sampleTs, initFiles := [], initLog := "" }

/-- The same manifest with every entry succeeding. -/
def envAllOk : BatchEnv :=
  { manifest := some sampleRows, artifact := some [goodCookie],
    outcomes := fun _ => .ok pageHtml,
    timestamps := fun _ => sampleTs, initFiles := [], initLog := "" }

/-- A run with the session artifact file absent. -/
def envNoArtifact : BatchEnv :=
  { manifest := some sampleRows, artifact := none,
    outcomes := fun _ => .ok pageHtml,
    timestamps := fun _ => sampleTs, initFiles := [], initLog := "" }

/-- A run whose manifest contains a malformed row between two good ones. -/
def envBadRow : BatchEnv :=
  { manifest := some [rowAAPL, rowNoTicker, rowMSFT], artifact := some [goodCookie],
    outcomes := fun _ => .ok pageHtml,
    timestamps := fun _ => sampleTs, initFiles := [], initLog := "" }

/-! ## Behaviour of the loop -/

/-- On a manifest of well-formed rows no iteration throws, and the effect
of the loop is fully described by `filesAfter`, `logsStr`, the visited URLs in
manifest order, and `eventsList`. -/
theorem runLoop_wellFormed_eq (out : Nat → TryOutcome) (ts : Nat → String)
    (rows : List Row) (h : ∀ r ∈ rows, r.wellFormed = true)
    (i : Nat) (st : BatchState) :
    runLoop out ts i st rows =
      ({ files := filesAfter out i st.files rows,
         errorLog := st.errorLog ++ logsStr out ts i rows,
         visited := st.visited ++ rows.map Row.fullUrl,
         trace := st.trace ++ eventsList out ts i rows }, none) := by
  induction rows generalizing i st with
  | nil => simp [runLoop, filesAfter, logsStr, eventsList]
  | cons r rs ih =>
    have hr : r.wellFormed = true := h r (List.mem_cons_self r rs)
    have hrs : ∀ x ∈ rs, x.wellFormed = true := fun x hx => h x (List.mem_cons_of_mem r hx)
    rw [Row.wellFormed, Bool.and_eq_true] at hr
    obtain ⟨t, ht⟩ := Option.isSome_iff_exists.mp hr.1
    obtain ⟨p, hp⟩ := Option.isSome_iff_exists.mp hr.2
    cases hout : out i with
    | ok c =>
      simp only [runLoop, processRow, ht, hp, hout, ih hrs]
      simp [filesAfter, logsStr, eventsList, hout, TryOutcome.failMsg?, entryEvent,
        Row.outName, Row.ident, Row.fullUrl, Row.urlPath, ht, hp,
        String.append_assoc, String.append_empty, String.empty_append]
    | navTimeout m =>
      simp only [runLoop, processRow, ht, hp, hout, ih hrs]
      simp [filesAfter, logsStr, eventsList, hout, TryOutcome.failMsg?, entryEvent,
        Row.outName, Row.ident, Row.fullUrl, Row.urlPath, ht, hp, logError,
        String.append_assoc, String.append_empty, String.empty_append]
    | netError m =>
      simp only [runLoop, processRow, ht, hp, hout, ih hrs]
      simp [filesAfter, logsStr, eventsList, hout, TryOutcome.failMsg?, entryEvent,
        Row.outName, Row.ident, Row.fullUrl, Row.urlPath, ht, hp, logError,
        String.append_assoc, String.append_empty, String.empty_append]
    | captureExn m =>
      simp only [runLoop, processRow, ht, hp, hout, ih hrs]
      simp [filesAfter, logsStr, eventsList, hout, TryOutcome.failMsg?, entryEvent,
        Row.outName, Row.ident, Row.fullUrl, Row.urlPath, ht, hp, logError,
        String.append_assoc, String.append_empty, String.empty_append]

/-- The loop is strictly sequential: processing `xs ++ ys` runs `xs` to
completion first and only then starts `ys`, from the state `xs` produced,
provided nothing in `xs` threw. -/
theorem runLoop_append (out : Nat → TryOutcome) (ts : Nat → String)
    (xs ys : List Row) (i : Nat) (st : BatchState)
    (h : (runLoop out ts i st xs).2 = none) :
    runLoop out ts i st (xs ++ ys) =
      runLoop out ts (i + xs.length) (runLoop out ts i st xs).1 ys := by
  induction xs generalizing i st with
  | nil => simp [runLoop]
  | cons x xs ih =>
    rcases hpr : processRow (out i) (ts i) st x with ⟨st2, o⟩
    cases o with
    | none =>
      have h2 : (runLoop out ts (i + 1) st2 xs).2 = none := by
        simp only [runLoop, hpr] at h
        exact h
      have hstep : runLoop out ts i st ((x :: xs) ++ ys) =
          runLoop out ts (i + 1) st2 (xs ++ ys) := by
        simp only [List.cons_append, runLoop, hpr]
        rfl
      have hstep2 : runLoop out ts i st (x :: xs) = runLoop out ts (i + 1) st2 xs := by
        simp only [runLoop, hpr]
      rw [hstep, hstep2, ih _ _ h2, List.length_cons]
      have hidx : i + (xs.length + 1) = i + 1 + xs.length := by omega
      rw [hidx]
    | some e =>
      exfalso
      simp only [runLoop, hpr] at h
      exact Option.noConfusion h

/-- A row missing the `tickers` or `canonical_url` column throws the
`TypeError` before performing any effect of its iteration. -/
theorem processRow_bad (out : TryOutcome) (ts : String) (st : BatchState) (r : Row)
    (hbad : r.tickers = none ∨ r.canonicalUrl = none) :
    processRow out ts st r = (st, some trimTypeError) := by
  cases htk : r.tickers with
  | none => simp [processRow, htk]
  | some t =>
    cases hcu : r.canonicalUrl with
    | none => simp [processRow, htk, hcu]
    | some p =>
      rcases hbad with hb | hb
      · rw [htk] at hb; exact Option.noConfusion hb
      · rw [hcu] at hb; exact Option.noConfusion hb

/-- A malformed row aborts the loop: the effects of the well-formed rows
before it are kept, the malformed row and everything after it contribute
nothing, and the `TypeError` escapes. -/
theorem runLoop_abort (out : Nat → TryOutcome) (ts : Nat → String)
    (pre post : List Row) (bad : Row)
    (hpre : ∀ r ∈ pre, r.wellFormed = true)
    (hbad : bad.tickers = none ∨ bad.canonicalUrl = none)
    (i : Nat) (st : BatchState) :
    runLoop out ts i st (pre ++ bad :: post) =
      ({ files := filesAfter out i st.files pre,
         errorLog := st.errorLog ++ logsStr out ts i pre,
         visited := st.visited ++ pre.map Row.fullUrl,
         trace := st.trace ++ eventsList out ts i pre }, some trimTypeError) := by
  have hpre' := runLoop_wellFormed_eq out ts pre hpre i st
  rw [runLoop_append out ts pre (bad :: post) i st (by rw [hpre']), hpre']
  simp [runLoop, processRow_bad _ _ _ _ hbad]

/-- Each row of a well-formed batch contributes exactly one filesystem
event, so writes plus appends over the trace count the rows. -/
theorem eventsList_count (out : Nat → TryOutcome) (ts : Nat → String)
    (rows : List Row) (i : Nat) :
    (eventsList out ts i rows).countP FsEvent.isWrite
      + (eventsList out ts i rows).countP FsEvent.isAppend = rows.length := by
  induction rows generalizing i with
  | nil => simp [eventsList]
  | cons r rs ih =>
    cases hout : out i with
    | ok c =>
      simp [eventsList, entryEvent, hout, List.countP_cons, List.length_cons,
        FsEvent.isWrite, FsEvent.isAppend]
      have := ih (i + 1)
      omega
    | navTimeout m =>
      simp [eventsList, entryEvent, hout, List.countP_cons, List.length_cons,
        FsEvent.isWrite, FsEvent.isAppend]
      have := ih (i + 1)
      omega
    | netError m =>
      simp [eventsList, entryEvent, hout, List.countP_cons, List.length_cons,
        FsEvent.isWrite, FsEvent.isAppend]
      have := ih (i + 1)
      omega
    | captureExn m =>
      simp [eventsList, entryEvent, hout, List.countP_cons, List.length_cons,
        FsEvent.isWrite, FsEvent.isAppend]
      have := ih (i + 1)
      omega

/-- On a manifest of well-formed rows (and with the artifact present), the
whole run is described in closed form: every row is visited in order, the
loop completes, the browser is closed and the fixed completion message is
printed. -/
theorem runBatch_wellFormed_eq (e : BatchEnv) (rows : List Row)
    (hman : e.manifest = some rows) (hart : e.artifact.isSome)
    (hrows : ∀ r ∈ rows, r.wellFormed = true) :
    runBatch e =
      { files := filesAfter e.outcomes 0 e.initFiles rows,
        errorLog := e.initLog ++ logsStr e.outcomes e.timestamps 0 rows,
        visited := rows.map Row.fullUrl,
        trace := eventsList e.outcomes e.timestamps 0 rows,
        browserClosed := true,
        summaryReport := some allCreatedMsg,
        fatal := none } := by
  obtain ⟨a, ha⟩ := Option.isSome_iff_exists.mp hart
  simp only [runBatch, hman, dumpHTMLRun, ha]
  rw [runLoop_wellFormed_eq e.outcomes e.timestamps rows hrows 0
    { files := e.initFiles, errorLog := e.initLog, visited := [], trace := [] }]
  simp

/-- A successful iteration on a well-formed row: the captured content is
written to `<ident>.html` (overwriting), the error log is untouched, the
composed URL is visited, and the single syscall is that write. -/
theorem processRow_ok (ts : String) (st : BatchState) (r : Row) (c : String)
    (hwf : r.wellFormed = true) :
    processRow (.ok c) ts st r =
      ({ files := writeFile st.files r.outName c,
         errorLog := st.errorLog,
         visited := st.visited ++ [r.fullUrl],
         trace := st.trace ++ [.write r.outName c] }, none) := by
  rw [Row.wellFormed, Bool.and_eq_true] at hwf
  obtain ⟨t, ht⟩ := Option.isSome_iff_exists.mp hwf.1
  obtain ⟨p, hp⟩ := Option.isSome_iff_exists.mp hwf.2
  simp [processRow, ht, hp, Row.outName, Row.ident, Row.fullUrl, Row.urlPath]

/-- A failed iteration on a well-formed row: no file is touched, exactly one
`logLine` for the identifier of the row is appended to the error log, the composed
URL was still attempted, and the loop does not throw. -/
theorem processRow_fail (out : TryOutcome) (ts : String) (st : BatchState) (r : Row)
    (m : String) (hwf : r.wellFormed = true) (hf : out.failMsg? = some m) :
    processRow out ts st r =
      ({ files := st.files,
         errorLog := st.errorLog ++ logLine ts r.ident m,
         visited := st.visited ++ [r.fullUrl],
         trace := st.trace ++ [.append (logLine ts r.ident m)] }, none) := by
  rw [Row.wellFormed, Bool.and_eq_true] at hwf
  obtain ⟨t, ht⟩ := Option.isSome_iff_exists.mp hwf.1
  obtain ⟨p, hp⟩ := Option.isSome_iff_exists.mp hwf.2
  cases out with
  | ok c => simp [TryOutcome.failMsg?] at hf
  | navTimeout m2 =>
    simp only [TryOutcome.failMsg?, Option.some.injEq] at hf
    subst hf
    simp [processRow, ht, hp, logError, Row.ident, Row.fullUrl, Row.urlPath]
  | netError m2 =>
    simp only [TryOutcome.failMsg?, Option.some.injEq] at hf
    subst hf
    simp [processRow, ht, hp, logError, Row.ident, Row.fullUrl, Row.urlPath]
  | captureExn m2 =>
    simp only [TryOutcome.failMsg?, Option.some.injEq] at hf
    subst hf
    simp [processRow, ht, hp, logError, Row.ident, Row.fullUrl, Row.urlPath]

/-- The loop performs one syscall per row. -/
theorem eventsList_length (out : Nat → TryOutcome) (ts : Nat → String)
    (rows : List Row) (i : Nat) :
    (eventsList out ts i rows).length = rows.length := by
  induction rows generalizing i with
  | nil => simp [eventsList]
  | cons r rs ih => simp [eventsList, ih]

/-- The syscall at position `k` of the trace of the loop is the one of row `k`. -/
theorem eventsList_get? (out : Nat → TryOutcome) (ts : Nat → String)
    (rows : List Row) (i k : Nat) (r : Row) (hr : rows.get? k = some r) :
    (eventsList out ts i rows).get? k = some (entryEvent (out (i + k)) (ts (i + k)) r) := by
  induction rows generalizing i k with
  | nil => simp at hr
  | cons x xs ih =>
    cases k with
    | zero =>
      simp only [List.get?] at hr
      cases hr
      simp [eventsList]
    | succ k2 =>
      simp only [List.get?] at hr
      have := ih (i + 1) k2 hr
      simp only [eventsList, List.get?]
      rw [this]
      have hidx : i + 1 + k2 = i + (k2 + 1) := by omega
      rw [hidx]

/-- A `writeFileSync` recovers the written content under the written name. -/
theorem readFile?_writeFile_self (fs : List (String × String)) (n c : String) :
    readFile? (writeFile fs n c) n = some c := by
  induction fs with
  | nil => simp [writeFile, readFile?]
  | cons kv rest ih =>
    rcases kv with ⟨k, v⟩
    by_cases hk : k = n
    · simp [writeFile, readFile?, hk]
    · simp [writeFile, readFile?, hk, ih]

/-- A `writeFileSync` leaves every other file untouched. -/
theorem readFile?_writeFile_ne (fs : List (String × String)) (n c m : String)
    (hmn : m ≠ n) : readFile? (writeFile fs n c) m = readFile? fs m := by
  induction fs with
  | nil => simp [writeFile, readFile?, (Ne.symm hmn : n ≠ m)]
  | cons kv rest ih =>
    rcases kv with ⟨k, v⟩
    by_cases hk : k = n
    · subst hk
      simp [writeFile, readFile?, Ne.symm hmn]
    · by_cases hm : k = m
      · subst hm
        simp [writeFile, readFile?, hk]
      · simp [writeFile, readFile?, hk, hm, ih]

/-- A name is a key of the directory after a write iff it was one before or
is the written name. -/
theorem mem_keys_writeFile (fs : List (String × String)) (n c m : String) :
    m ∈ (writeFile fs n c).map Prod.fst ↔ m ∈ fs.map Prod.fst ∨ m = n := by
  induction fs with
  | nil => simp [writeFile]
  | cons kv rest ih =>
    rcases kv with ⟨k, v⟩
    by_cases hk : k = n
    · subst hk
      simp [writeFile]
      tauto
    · simp [writeFile, hk, ih]
      tauto

/-- A `writeFileSync` overwrites rather than duplicates: it never creates a
second directory entry for an existing name. -/
theorem writeFile_keys_nodup (fs : List (String × String)) (n c : String)
    (h : (fs.map Prod.fst).Nodup) : ((writeFile fs n c).map Prod.fst).Nodup := by
  induction fs with
  | nil => simp [writeFile]
  | cons kv rest ih =>
    rcases kv with ⟨k, v⟩
    simp only [List.map_cons, List.nodup_cons] at h
    by_cases hk : k = n
    · subst hk
      simpa [writeFile] using h
    · simp only [writeFile, if_neg hk, List.map_cons, List.nodup_cons]
      constructor
      · intro hmem
        rcases (mem_keys_writeFile rest n c k).mp hmem with hmem2 | hmem2
        · exact h.1 hmem2
        · exact hk hmem2
      · exact ih h.2

/-- The whole loop never duplicates a directory entry. -/
theorem filesAfter_keys_nodup (out : Nat → TryOutcome) (rows : List Row)
    (i : Nat) (fs : List (String × String)) (h : (fs.map Prod.fst).Nodup) :
    ((filesAfter out i fs rows).map Prod.fst).Nodup := by
  induction rows generalizing i fs with
  | nil => simpa [filesAfter] using h
  | cons r rs ih =>
    cases hout : out i with
    | ok c =>
      simp only [filesAfter, hout]
      exact ih (i + 1) _ (writeFile_keys_nodup fs r.outName c h)
    | navTimeout m => simp only [filesAfter, hout]; exact ih (i + 1) fs h
    | netError m => simp only [filesAfter, hout]; exact ih (i + 1) fs h
    | captureExn m => simp only [filesAfter, hout]; exact ih (i + 1) fs h

/-! ## Claims -/

/-- Claim C1: if processing entry `k` of a manifest fails with a navigation
timeout, network error, or an exception while capturing content, the Batch
Fetcher does not abort the batch: the run finishes with no fatal error and
the browser closed, every entry — including all those after `k` — is still
visited in manifest order, the failing iteration leaves the output directory
exactly as it was (so files written for earlier entries are unchanged), and
exactly one error-log line for entry `k` is appended. -/
theorem batch_failure_contained (e : BatchEnv) (rows : List Row) (k : Nat)
    (rk : Row) (m : String)
    (hman : e.manifest = some rows)
    (hart : e.artifact.isSome = true)
    (hrows : ∀ r ∈ rows, r.wellFormed = true)
    (hrk : rows.get? k = some rk)
    (hfail : (e.outcomes k).failMsg? = some m) :
    (runBatch e).fatal = none ∧ (runBatch e).browserClosed = true
    ∧ (runBatch e).visited = rows.map Row.fullUrl
    ∧ (runLoop e.outcomes e.timestamps 0 (initState e) (rows.take (k + 1))).1.files
        = (runLoop e.outcomes e.timestamps 0 (initState e) (rows.take k)).1.files
    ∧ (runLoop e.outcomes e.timestamps 0 (initState e) (rows.take (k + 1))).1.errorLog
        = (runLoop e.outcomes e.timestamps 0 (initState e) (rows.take k)).1.errorLog
          ++ logLine (e.timestamps k) rk.ident m := by
  have hmaster := runBatch_wellFormed_eq e rows hman hart hrows
  have htake : ∀ r ∈ rows.take k, r.wellFormed = true :=
    fun r hr => hrows r (List.take_subset k rows hr)
  have hk1 := runLoop_wellFormed_eq e.outcomes e.timestamps (rows.take k) htake 0 (initState e)
  have hrkwf : rk.wellFormed = true := hrows rk (List.get?_mem hrk)
  have hklt : k < rows.length := by
    rcases List.get?_eq_some.mp hrk with ⟨h, _⟩
    exact h
  have hlen : (rows.take k).length = k := by
    rw [List.length_take]
    exact Nat.min_eq_left (Nat.le_of_lt hklt)
  have hsucc : rows.take (k + 1) = rows.take k ++ [rk] := by
    rw [List.take_succ, ← List.get?_eq_getElem?, hrk]
    rfl
  have happ := runLoop_append e.outcomes e.timestamps (rows.take k) [rk] 0 (initState e)
    (by rw [hk1])
  have heq : runLoop e.outcomes e.timestamps 0 (initState e) (rows.take (k + 1))
      = ({ files := (runLoop e.outcomes e.timestamps 0 (initState e) (rows.take k)).1.files,
           errorLog := (runLoop e.outcomes e.timestamps 0 (initState e) (rows.take k)).1.errorLog
             ++ logLine (e.timestamps k) rk.ident m,
           visited := (runLoop e.outcomes e.timestamps 0 (initState e) (rows.take k)).1.visited
             ++ [rk.fullUrl],
           trace := (runLoop e.outcomes e.timestamps 0 (initState e) (rows.take k)).1.trace
             ++ [.append (logLine (e.timestamps k) rk.ident m)] }, none) := by
    rw [hsucc, happ, Nat.zero_add, hlen]
    simp [runLoop,
      processRow_fail (e.outcomes k) (e.timestamps k) _ rk m hrkwf hfail]
  refine ⟨by rw [hmaster], by rw [hmaster], by rw [hmaster], ?_, ?_⟩
  · rw [heq]
  · rw [heq]

/-- Concrete witness for `batch_failure_contained`: in `envMixed`, entry 1
(`rowBAD`) times out while entries 0 and 2 succeed. -/
theorem batch_failure_contained_witness :
    (runBatch envMixed).fatal = none ∧ (runBatch envMixed).browserClosed = true
    ∧ (runBatch envMixed).visited = sampleRows.map Row.fullUrl
    ∧ (runLoop envMixed.outcomes envMixed.timestamps 0 (initState envMixed)
          (sampleRows.take (1 + 1))).1.files
        = (runLoop envMixed.outcomes envMixed.timestamps 0 (initState envMixed)
            (sampleRows.take 1)).1.files
    ∧ (runLoop envMixed.outcomes envMixed.timestamps 0 (initState envMixed)
          (sampleRows.take (1 + 1))).1.errorLog
        = (runLoop envMixed.outcomes envMixed.timestamps 0 (initState envMixed)
            (sampleRows.take 1)).1.errorLog
          ++ logLine (envMixed.timestamps 1) rowBAD.ident timeoutMsg :=
  batch_failure_contained envMixed sampleRows 1 rowBAD timeoutMsg rfl (by decide)
    (by decide) (by decide) (by decide)

/-- Claim C2: each manifest entry the Batch Fetcher processes produces
exactly one filesystem event: the write of `<identifier>.html` with the
captured content on success, or the append of one error-log line for that
identifier on failure.  The trace has exactly one event per entry (never
neither), and the single event is of exactly one of the two kinds (never
both). -/
theorem entry_single_outcome (e : BatchEnv) (rows : List Row) (k : Nat) (rk : Row)
    (hman : e.manifest = some rows)
    (hart : e.artifact.isSome = true)
    (hrows : ∀ r ∈ rows, r.wellFormed = true)
    (hrk : rows.get? k = some rk) :
    (runBatch e).trace.length = rows.length
    ∧ ∃ ev : FsEvent, (runBatch e).trace.get? k = some ev
      ∧ ((∃ c, e.outcomes k = .ok c ∧ ev = .write rk.outName c)
        ∨ (∃ mm, (e.outcomes k).failMsg? = some mm
            ∧ ev = .append (logLine (e.timestamps k) rk.ident mm))) := by
  have hmaster := runBatch_wellFormed_eq e rows hman hart hrows
  constructor
  · rw [hmaster]
    exact eventsList_length e.outcomes e.timestamps rows 0
  · refine ⟨entryEvent (e.outcomes k) (e.timestamps k) rk, ?_, ?_⟩
    · rw [hmaster]
      have := eventsList_get? e.outcomes e.timestamps rows 0 k rk hrk
      rwa [Nat.zero_add] at this
    · cases hc : e.outcomes k with
      | ok c => exact Or.inl ⟨c, rfl, by simp [entryEvent]⟩
      | navTimeout mm =>
        exact Or.inr ⟨mm, by simp [TryOutcome.failMsg?], by simp [entryEvent]⟩
      | netError mm =>
        exact Or.inr ⟨mm, by simp [TryOutcome.failMsg?], by simp [entryEvent]⟩
      | captureExn mm =>
        exact Or.inr ⟨mm, by simp [TryOutcome.failMsg?], by simp [entryEvent]⟩

/-- Concrete witness for `entry_single_outcome` at the failing entry 1 of
`envMixed`. -/
theorem entry_single_outcome_witness :
    (runBatch envMixed).trace.length = sampleRows.length
    ∧ ∃ ev : FsEvent, (runBatch envMixed).trace.get? 1 = some ev
      ∧ ((∃ c, envMixed.outcomes 1 = .ok c ∧ ev = .write rowBAD.outName c)
        ∨ (∃ mm, (envMixed.outcomes 1).failMsg? = some mm
            ∧ ev = .append (logLine (envMixed.timestamps 1) rowBAD.ident mm))) :=
  entry_single_outcome envMixed sampleRows 1 rowBAD rfl (by decide) (by decide) (by decide)

/-- Claim C3 counterexample: the Session Capturer filters by SUBSTRING
containment (`c.domain.includes("simplywall.st")`), not by domain scope.
With the mixed jar it persists `evilCookie`, whose domain
`simplywall.st.evil.com` contains the target domain as a substring but
neither equals it nor has it as a suffix — an out-of-scope cookie is
persisted, refuting the claimed invariant. -/
theorem cookie_filter_substring_counterexample :
    captureRun { navFails := false, jar := mixedJar } none
        = some [goodCookie, evilCookie]
    ∧ specInTargetScope evilCookie.domain = false
    ∧ specInTargetScope goodCookie.domain = true := by decide

/-- Claim C3 amended: the persisted artifact contains exactly those cookies
of the jar whose domain contains `simplywall.st` as a substring.  In-scope
cookies (equal or suffix domains) all satisfy this, but so do out-of-scope
domains that merely embed the target domain, and those are persisted too. -/
theorem cookie_filter_substring (jar : List Cookie) (c : Cookie) :
    c ∈ sessionCookies jar ↔ c ∈ jar ∧ jsIncludes c.domain targetDomain = true := by
  simp [sessionCookies, List.mem_filter]

/-- Claim C4: the manifest is consumed as one fully-loaded list (`readCSV`
resolves the complete row list before `dumpHTML` starts) and its entries are
visited strictly sequentially in manifest order: the trace of URLs passed to
`page.goto` equals the rows of the manifest in order, and for every cut point `k`
the loop on the whole manifest equals the loop on the first `k` entries
followed — from the state those produced — by the loop on the remaining
entries. -/
theorem batch_sequential_order (e : BatchEnv) (rows : List Row)
    (hman : e.manifest = some rows)
    (hart : e.artifact.isSome = true)
    (hrows : ∀ r ∈ rows, r.wellFormed = true) :
    (runBatch e).visited = rows.map Row.fullUrl
    ∧ ∀ k : Nat, k ≤ rows.length →
        runLoop e.outcomes e.timestamps 0 (initState e) rows
          = runLoop e.outcomes e.timestamps k
              (runLoop e.outcomes e.timestamps 0 (initState e) (rows.take k)).1
              (rows.drop k) := by
  constructor
  · rw [runBatch_wellFormed_eq e rows hman hart hrows]
  · intro k hk
    have htake : ∀ r ∈ rows.take k, r.wellFormed = true :=
      fun r hr => hrows r (List.take_subset k rows hr)
    have hk1 := runLoop_wellFormed_eq e.outcomes e.timestamps (rows.take k) htake 0 (initState e)
    conv_lhs => rw [← List.take_append_drop k rows]
    rw [runLoop_append e.outcomes e.timestamps (rows.take k) (rows.drop k) 0 (initState e)
      (by rw [hk1])]
    have hidx : 0 + (rows.take k).length = k := by
      rw [Nat.zero_add, List.length_take]
      exact Nat.min_eq_left hk
    rw [hidx]

/-- Concrete witness for `batch_sequential_order` on `envAllOk`, with the
decomposition taken at `k = 1`. -/
theorem batch_sequential_order_witness :
    (runBatch envAllOk).visited = sampleRows.map Row.fullUrl
    ∧ runLoop envAllOk.outcomes envAllOk.timestamps 0 (initState envAllOk) sampleRows
        = runLoop envAllOk.outcomes envAllOk.timestamps 1
            (runLoop envAllOk.outcomes envAllOk.timestamps 0 (initState envAllOk)
              (sampleRows.take 1)).1
            (sampleRows.drop 1) :=
  ⟨(batch_sequential_order envAllOk sampleRows rfl (by decide) (by decide)).1,
   (batch_sequential_order envAllOk sampleRows rfl (by decide) (by decide)).2 1 (by decide)⟩

/-- Claim C5 counterexample: the code reports no `{succeeded, failed}`
aggregate.  Two runs of the same manifest with different success/failure
counts (2/1 versus 3/0) end with the identical report — the fixed string of
line 124, which carries no counts — so the completion report cannot be the
claimed summary. -/
theorem no_aggregate_summary_counterexample :
    succeededOf (runBatch envMixed) = 2 ∧ failedOf (runBatch envMixed) = 1
    ∧ succeededOf (runBatch envAllOk) = 3 ∧ failedOf (runBatch envAllOk) = 0
    ∧ (runBatch envMixed).summaryReport = (runBatch envAllOk).summaryReport
    ∧ (runBatch envMixed).summaryReport = some allCreatedMsg := by decide

/-- Claim C5 amended: after all entries of a well-formed manifest are
processed the Batch Fetcher closes the browser context and prints the fixed
completion message `✅ All HTML files created`, which carries no counts.
Every entry does end as exactly one success or failure — writes plus appends
in the syscall trace equal the manifest length — but no aggregate
`{succeeded, failed}` summary is returned or reported. -/
theorem batch_completion_no_counts (e : BatchEnv) (rows : List Row)
    (hman : e.manifest = some rows)
    (hart : e.artifact.isSome = true)
    (hrows : ∀ r ∈ rows, r.wellFormed = true) :
    (runBatch e).browserClosed = true
    ∧ (runBatch e).summaryReport = some allCreatedMsg
    ∧ succeededOf (runBatch e) + failedOf (runBatch e) = rows.length := by
  have hmaster := runBatch_wellFormed_eq e rows hman hart hrows
  refine ⟨by rw [hmaster], by rw [hmaster], ?_⟩
  rw [succeededOf, failedOf, hmaster]
  exact eventsList_count e.outcomes e.timestamps rows 0

/-- Concrete witness for `batch_completion_no_counts` on `envMixed`. -/
theorem batch_completion_no_counts_witness :
    (runBatch envMixed).browserClosed = true
    ∧ (runBatch envMixed).summaryReport = some allCreatedMsg
    ∧ succeededOf (runBatch envMixed) + failedOf (runBatch envMixed) = sampleRows.length :=
  batch_completion_no_counts envMixed sampleRows rfl (by decide) (by decide)

/-- Claim C6: when the session artifact file is absent, `applyCookies`
throws the configuration error `Cookies file "cookies.json" not found. Run
login.js first.` before the output directory is ensured and before any
iteration runs; the run ends fatally with that message, no output file is
written, no syscall is performed, and no entry is visited. -/
theorem missing_artifact_config_error (e : BatchEnv) (rows : List Row)
    (hman : e.manifest = some rows)
    (hart : e.artifact = none) :
    runBatch e =
      { files := e.initFiles, errorLog := e.initLog, visited := [], trace := [],
        browserClosed := false, summaryReport := none,
        fatal := some missingCookiesMsg } := by
  simp [runBatch, hman, dumpHTMLRun, hart]

/-- Concrete witness for `missing_artifact_config_error` on
`envNoArtifact`. -/
theorem missing_artifact_config_error_witness :
    runBatch envNoArtifact =
      { files := envNoArtifact.initFiles, errorLog := envNoArtifact.initLog,
        visited := [], trace := [], browserClosed := false, summaryReport := none,
        fatal := some missingCookiesMsg } :=
  missing_artifact_config_error envNoArtifact sampleRows rfl rfl

/-- Claim C7: a Session Capturer run whose navigation to the login page
fails aborts before the cookie-jar read and artifact write are reached, so
no artifact is written: whatever `cookies.json` held before the run — a
prior artifact or nothing — is exactly what it holds afterwards. -/
theorem capture_nav_failure_keeps_prior (e : CaptureEnv)
    (prior : Option (List Cookie)) (h : e.navFails = true) :
    captureRun e prior = prior := by
  simp [captureRun, h]

/-- Concrete witness for `capture_nav_failure_keeps_prior`: a failed
navigation with a mixed jar leaves a prior one-cookie artifact untouched. -/
theorem capture_nav_failure_keeps_prior_witness :
    captureRun { navFails := true, jar := mixedJar } (some [goodCookie])
      = some [goodCookie] :=
  capture_nav_failure_keeps_prior { navFails := true, jar := mixedJar }
    (some [goodCookie]) rfl

/-- Claim C8: `logError` appends exactly the line
`timestamp | identifier | message` plus newline; over a whole run the error
log is only extended — the final log is the initial log followed by exactly
one such line per failed entry in order (`logsStr`), never truncated or
replaced, so a rerun starting from the produced log appends to it; and
output files are overwritten in place: a write replaces the content under
the name and the directory never acquires duplicate names. -/
theorem errorlog_append_only_files_overwrite (e : BatchEnv) (rows : List Row)
    (hman : e.manifest = some rows)
    (hart : e.artifact.isSome = true)
    (hrows : ∀ r ∈ rows, r.wellFormed = true)
    (hnodup : (e.initFiles.map Prod.fst).Nodup) :
    (∀ log ts tick msg, logError log ts tick msg
        = log ++ (ts ++ " | " ++ tick ++ " | " ++ msg ++ "\n"))
    ∧ (runBatch e).errorLog = e.initLog ++ logsStr e.outcomes e.timestamps 0 rows
    ∧ ((runBatch e).files.map Prod.fst).Nodup
    ∧ (∀ fs n c, readFile? (writeFile fs n c) n = some c) := by
  have hmaster := runBatch_wellFormed_eq e rows hman hart hrows
  refine ⟨fun log ts tick msg => rfl, by rw [hmaster], ?_, readFile?_writeFile_self⟩
  rw [hmaster]
  exact filesAfter_keys_nodup e.outcomes rows 0 e.initFiles hnodup

/-- Concrete witness for `errorlog_append_only_files_overwrite` on
`envMixed`, with the universally quantified conjuncts instantiated. -/
theorem errorlog_append_only_files_overwrite_witness :
    logError "" sampleTs "BAD" timeoutMsg
        = "" ++ (sampleTs ++ " | " ++ "BAD" ++ " | " ++ timeoutMsg ++ "\n")
    ∧ (runBatch envMixed).errorLog
        = envMixed.initLog ++ logsStr envMixed.outcomes envMixed.timestamps 0 sampleRows
    ∧ ((runBatch envMixed).files.map Prod.fst).Nodup
    ∧ readFile? (writeFile [] "AAPL.html" pageHtml) "AAPL.html" = some pageHtml :=
  ⟨(errorlog_append_only_files_overwrite envMixed sampleRows rfl (by decide)
      (by decide) (by decide)).1 "" sampleTs "BAD" timeoutMsg,
   (errorlog_append_only_files_overwrite envMixed sampleRows rfl (by decide)
      (by decide) (by decide)).2.1,
   (errorlog_append_only_files_overwrite envMixed sampleRows rfl (by decide)
      (by decide) (by decide)).2.2.1,
   (errorlog_append_only_files_overwrite envMixed sampleRows rfl (by decide)
      (by decide) (by decide)).2.2.2 [] "AAPL.html" pageHtml⟩

/-- Claim C9: a manifest row lacking the `tickers` or `canonical_url`
column makes `.trim()` throw a `TypeError` outside the per-item `try`,
aborting the whole batch: the effects of the well-formed rows before it are
kept, no error-log line is produced for the malformed row (the log holds
only `logsStr` of the earlier rows), no later entry is visited, the browser
is never closed, and the error surfaces as the fatal error of the run. -/
theorem malformed_row_aborts_batch (e : BatchEnv) (pre post : List Row) (bad : Row)
    (hman : e.manifest = some (pre ++ bad :: post))
    (hart : e.artifact.isSome = true)
    (hpre : ∀ r ∈ pre, r.wellFormed = true)
    (hbad : bad.tickers = none ∨ bad.canonicalUrl = none) :
    runBatch e =
      { files := filesAfter e.outcomes 0 e.initFiles pre,
        errorLog := e.initLog ++ logsStr e.outcomes e.timestamps 0 pre,
        visited := pre.map Row.fullUrl,
        trace := eventsList e.outcomes e.timestamps 0 pre,
        browserClosed := false, summaryReport := none,
        fatal := some trimTypeError } := by
  obtain ⟨a, ha⟩ := Option.isSome_iff_exists.mp hart
  simp only [runBatch, hman, dumpHTMLRun, ha]
  rw [runLoop_abort e.outcomes e.timestamps pre post bad hpre hbad 0
    { files := e.initFiles, errorLog := e.initLog, visited := [], trace := [] }]
  simp

/-- Concrete witness for `malformed_row_aborts_batch` on `envBadRow`, whose
second row lacks the `tickers` column. -/
theorem malformed_row_aborts_batch_witness :
    runBatch envBadRow =
      { files := filesAfter envBadRow.outcomes 0 envBadRow.initFiles [rowAAPL],
        errorLog := envBadRow.initLog
          ++ logsStr envBadRow.outcomes envBadRow.timestamps 0 [rowAAPL],
        visited := [rowAAPL].map Row.fullUrl,
        trace := eventsList envBadRow.outcomes envBadRow.timestamps 0 [rowAAPL],
        browserClosed := false, summaryReport := none,
        fatal := some trimTypeError } :=
  malformed_row_aborts_batch envBadRow [rowAAPL] [rowMSFT] rowNoTicker rfl
    (by decide) (by decide) (by decide)

/-- Claim C10: the loop trims both fields before any use: whatever the
outcome, the visited URL is `BASE_URL` concatenated with the trimmed path;
on success the output file is named by the trimmed identifier; and on every
failure kind the appended error-log line carries the trimmed identifier. -/
theorem fields_trimmed_before_use (ts : String) (st : BatchState) (t p c m : String) :
    (processRow (.ok c) ts st ⟨some t, some p⟩).1.visited
        = st.visited ++ [BASE_URL ++ jsTrim p]
    ∧ (processRow (.navTimeout m) ts st ⟨some t, some p⟩).1.visited
        = st.visited ++ [BASE_URL ++ jsTrim p]
    ∧ (processRow (.ok c) ts st ⟨some t, some p⟩).1.files
        = writeFile st.files (jsTrim t ++ ".html") c
    ∧ (processRow (.navTimeout m) ts st ⟨some t, some p⟩).1.errorLog
        = st.errorLog ++ logLine ts (jsTrim t) m
    ∧ (processRow (.netError m) ts st ⟨some t, some p⟩).1.errorLog
        = st.errorLog ++ logLine ts (jsTrim t) m
    ∧ (processRow (.captureExn m) ts st ⟨some t, some p⟩).1.errorLog
        = st.errorLog ++ logLine ts (jsTrim t) m := by
  refine ⟨?_, ?_, ?_, ?_, ?_, ?_⟩ <;> simp [processRow, logError]

